import Mathlib

/-!
Verification of the comment lifecycle model (`server/models/comments.js`).

The file shallowly embeds the comments model: the orchestrator entry points
`postNewComment`, `updateComment`, `deleteComment`, the objection hooks
(`$beforeInsert`, `$afterInsert`, static `afterUpdate`), the index recompute
`indexComments` and the mail composer `sendNotify`.  External collaborators
that live outside this repository (page store, comment storage provider,
search engine, mailer, authorization check) are modelled from the spec's
interface contracts (§4.4, §6) and are marked as such in doc comments.

JavaScript specifics that matter are embedded explicitly: `_.trim`,
`_.toLower` (which maps `undefined` to the empty string), the validate.js
0.13.1 email/presence/length validators, object spread with field override,
and the truthiness of an (even empty) JS array.
-/

deriving instance DecidableEq for Except

namespace WikiComments

/-- A JSON value stored inside a page's `extra` metadata bag.  Only the
shapes the comments model produces are needed: plain strings and arrays of
comment-content strings. -/
inductive JVal where
  | str : String → JVal
  | arr : List String → JVal
deriving DecidableEq, Repr

/-- A persisted comment row (table `comments`). -/
structure CommentRow where
  id : Nat
  pageId : Nat
  content : String
  render : String
  name : String
  email : String
  ip : String
  createdAt : Nat
  updatedAt : Nat
deriving DecidableEq, Repr

/-- A page row, as far as the comments model reads and writes it. -/
structure PageRec where
  id : Nat
  path : String
  localeCode : String
  title : String
  render : String
  extra : List (String × JVal)
deriving DecidableEq, Repr

/-- A registered caller identity as supplied to the orchestrator. -/
structure UserRec where
  id : Nat
  name : String
  email : String
deriving DecidableEq, Repr

/-- The page snapshot handed to `WIKI.data.searchEngine.updated`: the
re-read page plus the derived `safeContent` field. -/
structure PageSnapshot where
  page : PageRec
  safeContent : String
deriving DecidableEq, Repr

/-- A message handed to `WIKI.mail.send` by `sendNotify` (`toAddrs` embeds
the source's `to` field, whose name is reserved in Lean). -/
structure MailMsg where
  template : String
  toAddrs : List String
  subject : String
  titleData : String
  content : String
  buttonLink : String
  text : String
deriving DecidableEq, Repr

/-- The error taxonomy thrown by the model (`WIKI.Error.*`), plus `jsError`
for runtime failures that propagate out of awaited calls (search-engine
failures, TypeErrors). -/
inductive WikiErr where
  | inputInvalid (msg : String)
  | commentContentMissing
  | pageNotFound
  | commentNotFound
  | commentPostForbidden
  | commentManageForbidden
  | jsError (msg : String)
deriving DecidableEq, Repr

/-- The observable world state threaded through the model: stored comment
rows, stored pages, snapshots pushed to the search engine, sent mails,
logger output, and the current clock tick (`new Date()`). -/
structure WikiState where
  comments : List CommentRow
  pages : List PageRec
  indexPushes : List PageSnapshot
  mails : List MailMsg
  logs : List String
  now : Nat
deriving DecidableEq, Repr

/-- External collaborators configured at runtime: `WIKI.auth.checkAccess`
(subject, capability list, path, locale), `WIKI.models.pages.cleanHTML`,
whether `WIKI.data.searchEngine.updated` throws, the configured host and
the `NOTIFY_EMAIL` recipient. -/
structure Env where
  checkAccess : UserRec → List String → String → String → Bool
  cleanHTML : String → String
  searchFails : Bool
  host : String
  notifyEmail : String

/- ## JavaScript / lodash / validate.js primitives -/

/-- `_.trim`: strip whitespace from both ends. -/
def jsTrim (s : String) : String :=
  String.mk (((s.data.dropWhile Char.isWhitespace).reverse.dropWhile
    Char.isWhitespace).reverse)

/-- `_.toLower` applied to a possibly-undefined value: `undefined` becomes
the empty string, a string is lowercased. -/
def lodashToLower (o : Option String) : String :=
  match o with
  | none => ""
  | some s => String.mk (s.data.map Char.toLower)

/-- Split a character list at every occurrence of `sep` (regex-style:
adjacent separators produce empty groups). -/
def splitChar (sep : Char) : List Char → List (List Char)
  | [] => [[]]
  | c :: cs =>
    match splitChar sep cs with
    | [] => if c = sep then [[], []] else [[c]]
    | g :: gs => if c = sep then [] :: g :: gs else (c :: g) :: gs

/-- `[a-z0-9]` (the pattern is applied to an already-lowercased string). -/
def alnumLower (c : Char) : Bool := c.isLower || c.isDigit

/-- The special characters admitted in a local-part atom of the validate.js
0.13.1 email pattern (apostrophe, backtick and braces built by code point). -/
def emailSpecialChars : List Char :=
  ['!', '#', '$', '%', '&', '*', '+', '/', '=', '?', '^', '_', '~', '-',
   Char.ofNat 39, Char.ofNat 96, Char.ofNat 123, Char.ofNat 124, Char.ofNat 125]

/-- A character allowed inside a local-part atom:
`[a-z0-9\u007F-￿!#$%&'*+/=?^_`{|}~-]`. -/
def emailAtomChar (c : Char) : Bool :=
  alnumLower c || decide (127 ≤ c.toNat) || emailSpecialChars.contains c

/-- A domain label: `[a-z0-9](?:[a-z0-9-]*[a-z0-9])?`. -/
def validDomainLabel (l : List Char) : Bool :=
  match l, l.reverse with
  | c :: _, d :: _ =>
    alnumLower c && alnumLower d && l.all (fun x => alnumLower x || x == '-')
  | _, _ => false

/-- The validate.js 0.13.1 email pattern, on an already-lowercased string:
dot-separated nonempty atoms, one `@`, and at least two domain labels. -/
def validEmailPattern (s : String) : Bool :=
  match splitChar '@' s.data with
  | [lpart, dpart] =>
    let atoms := splitChar '.' lpart
    let labels := splitChar '.' dpart
    atoms.all (fun p => decide (1 ≤ p.length) && p.all emailAtomChar) &&
      decide (2 ≤ labels.length) && labels.all validDomainLabel
  | _ => false

/-- Apostrophe, to build the validate.js message texts and mail templates. -/
def apos : String := String.singleton (Char.ofNat 39)

def emailInvalidMsg : String := "Email is not a valid email"

def emailTooLongMsg : String := "Email is too long (maximum is 255 characters)"

def nameBlankMsg : String := "Name can" ++ apos ++ "t be blank"

def nameTooShortMsg : String := "Name is too short (minimum is 2 characters)"

def nameTooLongMsg : String := "Name is too long (maximum is 255 characters)"

/-- The `email` attribute's flat messages from the `validate` call in
`postNewComment`: validators `email` and `length max 255`, applied to
`_.toLower(guestEmail)`.  validate.js skips a validator only when the value
is undefined; `_.toLower` makes the value always a string, so an absent
guestEmail is checked as `""` and fails the pattern. -/
def guestEmailMsgs (guestEmail : Option String) : List String :=
  let e := lodashToLower guestEmail
  (if validEmailPattern e then [] else [emailInvalidMsg]) ++
  (if e.length ≤ 255 then [] else [emailTooLongMsg])

/-- The `name` attribute's flat messages: `presence allowEmpty:false`, then
`length min 2 max 255` (skipped when undefined). -/
def guestNameMsgs (guestName : Option String) : List String :=
  (match guestName with
   | none => [nameBlankMsg]
   | some s => if jsTrim s = "" then [nameBlankMsg] else []) ++
  (match guestName with
   | none => []
   | some s =>
     if s.length < 2 then [nameTooShortMsg]
     else if 255 < s.length then [nameTooLongMsg] else [])

/-- All flat messages, email attribute first as in the source's constraint
object. -/
def guestValidationMsgs (guestEmail guestName : Option String) : List String :=
  guestEmailMsgs guestEmail ++ guestNameMsgs guestName

/- ## Modelled external lookups -/

/-- Modelled from the spec: `PageStore.getById(pageId) → Page | absent`
(§6).  The pages model (`WIKI.models.pages.getPageFromDb` and
`pages.query().findById`) is not under src; it is modelled as the first
stored page with the given id. -/
def getPageFromDb (st : WikiState) (pageId : Nat) : Option PageRec :=
  st.pages.find? (fun p => p.id == pageId)

/-- Modelled from the spec: `StorageProvider.getPageIdForComment(id) →
pageId | not-found` is a pure lookup with no side effects (§4.4).  The
commentProvider implementation is not under src; modelled as the pageId of
the stored comment row with the given id. -/
def getPageIdFromCommentId (st : WikiState) (id : Nat) : Option Nat :=
  (st.comments.find? (fun c => c.id == id)).map (fun c => c.pageId)

/- ## Orchestrator entry points (src/server/models/comments.js) -/

/-- The author identity the orchestrator forwards to the storage provider:
`{...user, ...(user.id === 2) ? {name: guestName, email: guestEmail} : {},
ip}`.  The guest override can set `name`/`email` to `undefined`, hence the
`Option`. -/
structure ForwardedUser where
  id : Nat
  name : Option String
  email : Option String
  ip : String
deriving DecidableEq, Repr

/-- The argument record of `WIKI.data.commentProvider.create`. -/
structure CreateCall where
  pageId : Nat
  replyTo : Option Nat
  content : String
  user : ForwardedUser
deriving DecidableEq, Repr

/-- The argument record of `WIKI.data.commentProvider.update`. -/
structure UpdateCall where
  id : Nat
  content : String
  pageId : Nat
  user : ForwardedUser
deriving DecidableEq, Repr

/-- The argument record of `WIKI.data.commentProvider.remove`. -/
structure RemoveCall where
  id : Nat
  pageId : Nat
  user : ForwardedUser
deriving DecidableEq, Repr

/-- The storage-provider mutation calls an orchestrator run performs: the
single tail call on success, none when the run throws first. -/
def callsOf {α : Type} : Except WikiErr α → List α
  | Except.ok c => [c]
  | Except.error _ => []

structure CreateArgs where
  pageId : Nat
  replyTo : Option Nat
  content : String
  guestName : Option String
  guestEmail : Option String
  user : UserRec
  ip : String
deriving Repr

structure UpdateArgs where
  id : Nat
  content : String
  user : UserRec
  ip : String
deriving Repr

structure DeleteArgs where
  id : Nat
  user : UserRec
  ip : String
deriving Repr

/-- The part of `postNewComment` after the guest-validation block: content
trim + length check, page load, `write:comments` authorization, then the
provider `create` call with the resolved author identity. -/
def postNewCommentRest (env : Env) (st : WikiState) (args : CreateArgs) :
    Except WikiErr CreateCall :=
  let content := jsTrim args.content
  if content.length < 2 then Except.error WikiErr.commentContentMissing
  else
    match getPageFromDb st args.pageId with
    | some page =>
      if env.checkAccess args.user ["write:comments"] page.path page.localeCode then
        Except.ok
          { pageId := page.id
            replyTo := args.replyTo
            content := content
            user :=
              { id := args.user.id
                name := if args.user.id = 2 then args.guestName else some args.user.name
                email := if args.user.id = 2 then args.guestEmail else some args.user.email
                ip := args.ip } }
      else Except.error WikiErr.commentPostForbidden
    | none => Except.error WikiErr.pageNotFound

/-- `postNewComment`: guest validation first (only when `user.id === 2`,
throwing `InputInvalid` with the first flat message), then
`postNewCommentRest`. -/
def postNewComment (env : Env) (st : WikiState) (args : CreateArgs) :
    Except WikiErr CreateCall :=
  match (if args.user.id = 2 then
           guestValidationMsgs args.guestEmail args.guestName
         else []) with
  | m :: _ => Except.error (WikiErr.inputInvalid m)
  | [] => postNewCommentRest env st args

/-- `updateComment`: resolve the owning pageId from the comment id, load the
page, `manage:comments` authorization, then the provider `update` call.
No content validation is performed. -/
def updateComment (env : Env) (st : WikiState) (args : UpdateArgs) :
    Except WikiErr UpdateCall :=
  match getPageIdFromCommentId st args.id with
  | none => Except.error WikiErr.commentNotFound
  | some pageId =>
    match getPageFromDb st pageId with
    | some page =>
      if env.checkAccess args.user ["manage:comments"] page.path page.localeCode then
        Except.ok
          { id := args.id
            content := args.content
            pageId := page.id
            user :=
              { id := args.user.id
                name := some args.user.name
                email := some args.user.email
                ip := args.ip } }
      else Except.error WikiErr.commentManageForbidden
    | none => Except.error WikiErr.pageNotFound

/-- `deleteComment`: same resolution and authorization path as update, then
the provider `remove` call. -/
def deleteComment (env : Env) (st : WikiState) (args : DeleteArgs) :
    Except WikiErr RemoveCall :=
  match getPageIdFromCommentId st args.id with
  | none => Except.error WikiErr.commentNotFound
  | some pageId =>
    match getPageFromDb st pageId with
    | some page =>
      if env.checkAccess args.user ["manage:comments"] page.path page.localeCode then
        Except.ok
          { id := args.id
            pageId := page.id
            user :=
              { id := args.user.id
                name := some args.user.name
                email := some args.user.email
                ip := args.ip } }
      else Except.error WikiErr.commentManageForbidden
    | none => Except.error WikiErr.pageNotFound

/- ## IndexSync (`indexComments`) and its sub-operations -/

/-- Stable insertion into a createdAt-descending list: the new element goes
in front of the first element whose key is not larger, so earlier elements
keep their position among equal keys. -/
def insertCreatedDesc (c : CommentRow) : List CommentRow → List CommentRow
  | [] => [c]
  | d :: ds =>
    if d.createdAt ≤ c.createdAt then c :: d :: ds
    else d :: insertCreatedDesc c ds

/-- Stable sort by `createdAt` descending. -/
def sortCreatedDesc : List CommentRow → List CommentRow
  | [] => []
  | c :: cs => insertCreatedDesc c (sortCreatedDesc cs)

/-- The `comments.query().where('pageId', pageId).orderBy('createdAt',
'desc')` query: the page's comments, stable-sorted by creation time
descending.  SQL fixes no order among equal timestamps; the embedding keeps
storage order there. -/
def orderedComments (st : WikiState) (pageId : Nat) : List CommentRow :=
  sortCreatedDesc (st.comments.filter (fun c => c.pageId == pageId))

/-- A JS array is truthy even when it is empty; the source tests
`if (existingComments)` on the query-result array. -/
def jsTruthyArray {α : Type} (_ : List α) : Bool := true

/-- Object spread with override, `{...fields, k: v}`: replace the binding
of `k`, or append it when absent. -/
def jsSetField : List (String × JVal) → String → JVal → List (String × JVal)
  | [], k, v => [(k, v)]
  | (k0, v0) :: rest, k, v =>
    if k0 = k then (k, v) :: rest
    else (k0, v0) :: jsSetField rest k v

/-- Read a field of a metadata bag (first binding wins, as in a JS object). -/
def jsGetField : List (String × JVal) → String → Option JVal
  | [], _ => none
  | (k0, v0) :: rest, k => if k0 = k then some v0 else jsGetField rest k

/-- Replace the `extra` bag of every page row with the given id. -/
def patchPagesList (ps : List PageRec) (pid : Nat) (e : List (String × JVal)) :
    List PageRec :=
  ps.map (fun p => if p.id == pid then { p with extra := e } else p)

/-- Modelled from the spec: `PageStore.patchMetadata` (§6) — the
`pages.query().patch({extra: ...}).where('id', page.id)` call; the pages
model is not under src. -/
def patchPageExtra (st : WikiState) (pid : Nat) (e : List (String × JVal)) :
    WikiState :=
  { st with pages := patchPagesList st.pages pid e }

/-- `indexComments(pageId)`: fetch the page's comments ordered by creation
time descending; the `if (existingComments)` test is on the (always truthy)
array, so the informational no-op branch is unreachable and even an empty
set rewrites `extra.comment` and pushes to the search index.  On the truthy
branch: rewrite `extra.comment` to the content list, re-read the page,
derive `safeContent` via `cleanHTML(render)`, and call
`searchEngine.updated` (modelled as appending the snapshot, or failing when
`env.searchFails`). -/
def indexComments (env : Env) (st : WikiState) (pageId : Nat) :
    Except WikiErr Unit × WikiState :=
  let existingComments := orderedComments st pageId
  if jsTruthyArray existingComments then
    match getPageFromDb st pageId with
    | none => (Except.error (WikiErr.jsError "TypeError: page is undefined"), st)
    | some page =>
      let cArray := existingComments.map (fun c => c.content)
      let st1 := patchPageExtra st page.id (jsSetField page.extra "comment" (JVal.arr cArray))
      match getPageFromDb st1 page.id with
      | none => (Except.error (WikiErr.jsError "TypeError: updated page is undefined"), st1)
      | some updPage =>
        let snap : PageSnapshot :=
          { page := updPage, safeContent := env.cleanHTML updPage.render }
        if env.searchFails then
          (Except.error (WikiErr.jsError "searchEngine updated failed"), st1)
        else
          (Except.ok (), { st1 with indexPushes := st1.indexPushes ++ [snap] })
  else
    (Except.ok (), { st with logs := st.logs ++ ["No comments to index on this page."] })

/-- `sendNotify(pageId, content, author)`: load the page, build the deep
link and the fixed template, hand the message to `WIKI.mail.send` (not
awaited, so the send itself cannot fail the caller — modelled as an
unconditional append). -/
def sendNotify (env : Env) (st : WikiState) (pageId : Nat) (content : String)
    (author : String) : Except WikiErr Unit × WikiState :=
  match getPageFromDb st pageId with
  | none => (Except.error (WikiErr.jsError "TypeError: page is undefined"), st)
  | some page =>
    let pageLink := env.host ++ "/" ++ page.localeCode ++ "/" ++ page.path
    let pageRef := apos ++ page.title ++ apos
    let msg : MailMsg :=
      { template := "new-page"
        toAddrs := [env.notifyEmail]
        subject := "[wiki.js] New comment on " ++ page.title
        titleData := author ++ " commented on " ++ apos ++ pageRef ++ apos ++ "."
        content := content
        buttonLink := pageLink
        text := "A new comment was added to " ++ apos ++ pageRef ++ apos ++
          ". More information: " ++ pageLink }
    (Except.ok (), { st with mails := st.mails ++ [msg] })

/- ## Storage mutations with the model hooks from src -/

/-- The row built by the storage insert: provider-assigned id plus the
`$beforeInsert` hook from src, which sets `createdAt = updatedAt = now`. -/
def mkInsertRow (st : WikiState) (newId : Nat) (call : CreateCall) : CommentRow :=
  { id := newId
    pageId := call.pageId
    content := call.content
    render := ""
    name := call.user.name.getD ""
    email := call.user.email.getD ""
    ip := call.user.ip
    createdAt := st.now
    updatedAt := st.now }

/-- Modelled from the spec: `StorageProvider.create` persists the comment
atomically (§4.4); the commentProvider implementation is not under src.
The insert goes through the comments model, so the src hooks
`$beforeInsert` and `$afterInsert` run; objection awaits the hooks as part
of the insert call, and an error thrown in `$afterInsert` rejects the call
after the row is already stored.  `$afterInsert` awaits `indexComments`
then `sendNotify` with no catch. -/
def commentInsertWithHooks (env : Env) (st : WikiState) (newId : Nat)
    (call : CreateCall) : Except WikiErr CommentRow × WikiState :=
  let row := mkInsertRow st newId call
  let st1 := { st with comments := st.comments ++ [row] }
  match indexComments env st1 row.pageId with
  | (Except.error e, st2) => (Except.error e, st2)
  | (Except.ok _, st2) =>
    match sendNotify env st2 row.pageId row.content row.email with
    | (Except.error e, st3) => (Except.error e, st3)
    | (Except.ok _, st3) => (Except.ok row, st3)

/-- The patched comment list after a model update of one row
(`patchAndFetchById`). -/
def applyUpdateRow (st : WikiState) (id : Nat) (row' : CommentRow) : WikiState :=
  { st with comments := st.comments.map (fun c => if c.id == id then row' else c) }

/-- Modelled from the spec: `StorageProvider.update` persists the new
content atomically (§4.4); the commentProvider implementation is not under
src.  The update goes through the comments model, so the src hooks run:
`$beforeUpdate` sets `updatedAt`, and the static `afterUpdate` hook
re-reads the updated id, resolves its pageId and awaits `indexComments`
with no catch (an error rejects the update call after the row is already
patched). -/
def commentUpdateWithHooks (env : Env) (st : WikiState) (id : Nat)
    (content : String) : Except WikiErr CommentRow × WikiState :=
  match st.comments.find? (fun c => c.id == id) with
  | none => (Except.error (WikiErr.jsError "comment row not found"), st)
  | some row =>
    let row' := { row with content := content, updatedAt := st.now }
    let st1 := applyUpdateRow st id row'
    match getPageIdFromCommentId st1 id with
    | none => (Except.error (WikiErr.jsError "TypeError: comment is undefined"), st1)
    | some pid =>
      match indexComments env st1 pid with
      | (Except.error e, st2) => (Except.error e, st2)
      | (Except.ok _, st2) => (Except.ok row', st2)

/-- A create call end to end: the orchestrator (`postNewComment`) followed
by the provider insert with its hooks. -/
def createCommentFull (env : Env) (st : WikiState) (newId : Nat)
    (args : CreateArgs) : Except WikiErr CommentRow × WikiState :=
  match postNewComment env st args with
  | Except.error e => (Except.error e, st)
  | Except.ok call => commentInsertWithHooks env st newId call

/-- An update call end to end: the orchestrator (`updateComment`) followed
by the provider update with its hooks. -/
def updateCommentFull (env : Env) (st : WikiState) (args : UpdateArgs) :
    Except WikiErr CommentRow × WikiState :=
  match updateComment env st args with
  | Except.error e => (Except.error e, st)
  | Except.ok call => commentUpdateWithHooks env st call.id call.content

/-- A delete call end to end: the orchestrator (`deleteComment`) followed
by the provider remove.  Modelled from the spec: `StorageProvider.remove`
deletes the row atomically (§4.4); the comments model defines no
after-delete hook, so nothing else runs. -/
def deleteCommentFull (env : Env) (st : WikiState) (args : DeleteArgs) :
    Except WikiErr Unit × WikiState :=
  match deleteComment env st args with
  | Except.error e => (Except.error e, st)
  | Except.ok call =>
    (Except.ok (), { st with comments := st.comments.filter (fun c => c.id != call.id) })

/- ## Helper lemmas -/

theorem jsGetField_set_same (f : List (String × JVal)) (k : String) (v : JVal) :
    jsGetField (jsSetField f k v) k = some v := by
  induction f with
  | nil => simp [jsSetField, jsGetField]
  | cons kv rest ih =>
    obtain ⟨k0, v0⟩ := kv
    by_cases h : k0 = k
    · simp [jsSetField, jsGetField, h]
    · simp [jsSetField, jsGetField, h, ih]

theorem jsGetField_set_other (f : List (String × JVal)) (k : String) (v : JVal)
    (k' : String) (h : k' ≠ k) :
    jsGetField (jsSetField f k v) k' = jsGetField f k' := by
  have h' : ¬k = k' := fun hk => h hk.symm
  induction f with
  | nil => simp [jsSetField, jsGetField, h']
  | cons kv rest ih =>
    obtain ⟨k0, v0⟩ := kv
    by_cases h0 : k0 = k
    · subst h0
      simp [jsSetField, jsGetField, h']
    · by_cases h1 : k0 = k'
      · simp [jsSetField, jsGetField, h0, h1, h, h']
      · simp [jsSetField, jsGetField, h0, h1, ih]

theorem jsSetField_idem (f : List (String × JVal)) (k : String) (v : JVal) :
    jsSetField (jsSetField f k v) k v = jsSetField f k v := by
  induction f with
  | nil => simp [jsSetField]
  | cons kv rest ih =>
    obtain ⟨k0, v0⟩ := kv
    by_cases h : k0 = k
    · simp [jsSetField, h]
    · simp [jsSetField, h, ih]

theorem find?_patchPagesList_same (ps : List PageRec) (pid : Nat)
    (e : List (String × JVal)) :
    (patchPagesList ps pid e).find? (fun p => p.id == pid)
      = (ps.find? (fun p => p.id == pid)).map (fun p => { p with extra := e }) := by
  induction ps with
  | nil => simp [patchPagesList]
  | cons p rest ih =>
    by_cases h : p.id = pid
    · simp [patchPagesList, List.find?_cons, h]
    · simpa [patchPagesList, List.find?_cons, h] using ih

theorem patchPagesList_idem (ps : List PageRec) (pid : Nat)
    (e : List (String × JVal)) :
    patchPagesList (patchPagesList ps pid e) pid e = patchPagesList ps pid e := by
  induction ps with
  | nil => simp [patchPagesList]
  | cons p rest ih =>
    by_cases h : p.id = pid
    · simpa [patchPagesList, h] using ih
    · simpa [patchPagesList, h] using ih

theorem getPageFromDb_patch_same (st : WikiState) (pid : Nat)
    (e : List (String × JVal)) :
    getPageFromDb (patchPageExtra st pid e) pid
      = (getPageFromDb st pid).map (fun p => { p with extra := e }) := by
  simp [getPageFromDb, patchPageExtra, find?_patchPagesList_same]

/-- `indexComments` never touches the stored comment rows. -/
theorem indexComments_comments (env : Env) (st : WikiState) (p : Nat) :
    (indexComments env st p).2.comments = st.comments := by
  unfold indexComments
  simp only [jsTruthyArray, if_true]
  cases getPageFromDb st p with
  | none => rfl
  | some page =>
    simp only
    cases h2 : getPageFromDb
        (patchPageExtra st page.id (jsSetField page.extra "comment"
          (JVal.arr ((orderedComments st p).map (fun c => c.content))))) page.id with
    | none => simp [patchPageExtra]
    | some updPage =>
      by_cases hs : env.searchFails
      · simp [hs, patchPageExtra]
      · simp [hs, patchPageExtra]

/-- A successful `postNewComment` run passed the guest-validation phase. -/
theorem postNewComment_ok_elim (env : Env) (st : WikiState) (args : CreateArgs)
    (call : CreateCall) (hok : postNewComment env st args = Except.ok call) :
    postNewCommentRest env st args = Except.ok call := by
  unfold postNewComment at hok
  revert hok
  cases (if args.user.id = 2 then
      guestValidationMsgs args.guestEmail args.guestName else []) with
  | cons m rest => intro h; cases h
  | nil => intro h; exact h

/-- With too-short trimmed content, the post-validation phase fails with
`CommentContentMissing`. -/
theorem postNewCommentRest_short (env : Env) (st : WikiState) (args : CreateArgs)
    (h : (jsTrim args.content).length < 2) :
    postNewCommentRest env st args = Except.error WikiErr.commentContentMissing := by
  unfold postNewCommentRest
  simp [h]

/-- The post-validation phase never throws `InputInvalid`. -/
theorem postNewCommentRest_not_inputInvalid (env : Env) (st : WikiState)
    (args : CreateArgs) (m : String) :
    postNewCommentRest env st args ≠ Except.error (WikiErr.inputInvalid m) := by
  unfold postNewCommentRest
  by_cases hc : (jsTrim args.content).length < 2
  · simp [hc]
  · simp only [hc, if_false]
    cases getPageFromDb st args.pageId with
    | none => simp
    | some page =>
      by_cases ha : env.checkAccess args.user ["write:comments"] page.path page.localeCode
      · simp [ha]
      · simp [ha]

/-- If the post-validation phase reaches its provider call, the owning page
was found, the call's pageId is the requested one, and the forwarded
content and author identity are as built by the source's object spread. -/
theorem postNewCommentRest_ok_fields (env : Env) (st : WikiState)
    (args : CreateArgs) (call : CreateCall)
    (hok : postNewCommentRest env st args = Except.ok call) :
    (∃ page : PageRec, getPageFromDb st args.pageId = some page) ∧
    call.pageId = args.pageId ∧
    call.content = jsTrim args.content ∧
    call.user.name = (if args.user.id = 2 then args.guestName else some args.user.name) ∧
    call.user.email = (if args.user.id = 2 then args.guestEmail else some args.user.email) ∧
    call.user.ip = args.ip := by
  unfold postNewCommentRest at hok
  revert hok
  by_cases hc : (jsTrim args.content).length < 2
  · simp [hc]
  · simp only [hc, if_false]
    cases hp : getPageFromDb st args.pageId with
    | none => intro hok; cases hok
    | some page =>
      simp only
      by_cases ha : env.checkAccess args.user ["write:comments"] page.path page.localeCode
      · simp only [ha, if_true]
        intro hok
        have hid : page.id = args.pageId := by
          have := List.find?_some hp
          simpa using this
        cases hok
        exact ⟨⟨page, rfl⟩, hid, rfl, rfl, rfl, rfl⟩
      · simp [ha]

/-- If `deleteComment` reaches its provider call, the call removes exactly
the requested comment id. -/
theorem deleteComment_ok_id (env : Env) (st : WikiState) (args : DeleteArgs)
    (call : RemoveCall) (hok : deleteComment env st args = Except.ok call) :
    call.id = args.id := by
  unfold deleteComment at hok
  revert hok
  cases getPageIdFromCommentId st args.id with
  | none => intro hok; cases hok
  | some pid =>
    simp only
    cases getPageFromDb st pid with
    | none => intro hok; cases hok
    | some page =>
      simp only
      by_cases ha : env.checkAccess args.user ["manage:comments"] page.path page.localeCode
      · simp only [ha, if_true]
        intro hok
        cases hok
        rfl
      · simp [ha]

/-- If `updateComment` reaches its provider call, the call carries exactly
the requested id and the supplied content, unmodified. -/
theorem updateComment_ok_fields (env : Env) (st : WikiState) (args : UpdateArgs)
    (call : UpdateCall) (hok : updateComment env st args = Except.ok call) :
    call.id = args.id ∧ call.content = args.content := by
  unfold updateComment at hok
  revert hok
  cases getPageIdFromCommentId st args.id with
  | none => intro hok; cases hok
  | some pid =>
    simp only
    cases getPageFromDb st pid with
    | none => intro hok; cases hok
    | some page =>
      simp only
      by_cases ha : env.checkAccess args.user ["manage:comments"] page.path page.localeCode
      · simp only [ha, if_true]
        intro hok
        cases hok
        exact ⟨rfl, rfl⟩
      · simp [ha]

/-- Decidable createdAt-descending sortedness of a comment list. -/
def sortedDescBool : List CommentRow → Bool
  | [] => true
  | [_] => true
  | a :: b :: rest =>
    decide (b.createdAt ≤ a.createdAt) && sortedDescBool (b :: rest)

theorem sortedDescBool_insert (c : CommentRow) (l : List CommentRow)
    (h : sortedDescBool l = true) :
    sortedDescBool (insertCreatedDesc c l) = true := by
  induction l with
  | nil => simp [insertCreatedDesc, sortedDescBool]
  | cons d ds ih =>
    by_cases hd : d.createdAt ≤ c.createdAt
    · simp only [insertCreatedDesc, if_pos hd]
      simp only [sortedDescBool, Bool.and_eq_true, decide_eq_true_eq]
      exact ⟨hd, h⟩
    · simp only [insertCreatedDesc, if_neg hd]
      cases ds with
      | nil =>
        simp only [insertCreatedDesc, sortedDescBool, Bool.and_eq_true,
          decide_eq_true_eq]
        exact ⟨by omega, trivial⟩
      | cons e es =>
        have hde : e.createdAt ≤ d.createdAt ∧ sortedDescBool (e :: es) = true := by
          simpa [sortedDescBool] using h
        by_cases he : e.createdAt ≤ c.createdAt
        · simp only [insertCreatedDesc, if_pos he, sortedDescBool,
            Bool.and_eq_true, decide_eq_true_eq]
          exact ⟨by omega, he, by simpa [sortedDescBool] using hde.2⟩
        · have hins := ih hde.2
          rw [insertCreatedDesc, if_neg he] at hins
          simp only [insertCreatedDesc, if_neg he, sortedDescBool,
            Bool.and_eq_true, decide_eq_true_eq]
          exact ⟨hde.1, by simpa [sortedDescBool] using hins⟩

theorem sortedDescBool_sortCreatedDesc (l : List CommentRow) :
    sortedDescBool (sortCreatedDesc l) = true := by
  induction l with
  | nil => rfl
  | cons c cs ih => exact sortedDescBool_insert c _ ih

/-- With an unresolvable comment id, `updateComment` fails with
`CommentNotFound`. -/
theorem updateComment_noComment (env : Env) (st : WikiState) (args : UpdateArgs)
    (h : getPageIdFromCommentId st args.id = none) :
    updateComment env st args = Except.error WikiErr.commentNotFound := by
  unfold updateComment
  rw [h]

/-- With a resolved pageId whose page is absent, `updateComment` fails with
`PageNotFound`. -/
theorem updateComment_noPage (env : Env) (st : WikiState) (args : UpdateArgs)
    (pid : Nat) (h : getPageIdFromCommentId st args.id = some pid)
    (hp : getPageFromDb st pid = none) :
    updateComment env st args = Except.error WikiErr.pageNotFound := by
  simp [updateComment, h, hp]

/-- With an unresolvable comment id, `deleteComment` fails with
`CommentNotFound`. -/
theorem deleteComment_noComment (env : Env) (st : WikiState) (args : DeleteArgs)
    (h : getPageIdFromCommentId st args.id = none) :
    deleteComment env st args = Except.error WikiErr.commentNotFound := by
  unfold deleteComment
  rw [h]

/-- With a resolved pageId whose page is absent, `deleteComment` fails with
`PageNotFound`. -/
theorem deleteComment_noPage (env : Env) (st : WikiState) (args : DeleteArgs)
    (pid : Nat) (h : getPageIdFromCommentId st args.id = some pid)
    (hp : getPageFromDb st pid = none) :
    deleteComment env st args = Except.error WikiErr.pageNotFound := by
  simp [deleteComment, h, hp]

/-- When guest validation passes (or the caller is not the guest sentinel),
`postNewComment` is its post-validation phase. -/
theorem postNewComment_validation_pass (env : Env) (st : WikiState)
    (args : CreateArgs)
    (hg : args.user.id = 2 → guestValidationMsgs args.guestEmail args.guestName = []) :
    postNewComment env st args = postNewCommentRest env st args := by
  unfold postNewComment
  by_cases h2 : args.user.id = 2
  · rw [if_pos h2, hg h2]
  · rw [if_neg h2]

/-- With acceptable content but an absent page, the post-validation phase
fails with `PageNotFound`. -/
theorem postNewCommentRest_noPage (env : Env) (st : WikiState) (args : CreateArgs)
    (hc : ¬(jsTrim args.content).length < 2)
    (hp : getPageFromDb st args.pageId = none) :
    postNewCommentRest env st args = Except.error WikiErr.pageNotFound := by
  unfold postNewCommentRest
  simp [hc, hp]

/-- The `comment` field of a stored page's metadata bag (`none` when the
page is absent). -/
def extraCommentOf (st : WikiState) (pid : Nat) : Option (Option JVal) :=
  (getPageFromDb st pid).map (fun pg => jsGetField pg.extra "comment")

/-- When the page exists and the search push fails, `indexComments` errors
after the metadata patch is already written. -/
theorem indexComments_searchFails_eq (env : Env) (st : WikiState) (p : Nat)
    (page : PageRec) (hsf : env.searchFails = true)
    (hp : getPageFromDb st p = some page) :
    indexComments env st p
      = (Except.error (WikiErr.jsError "searchEngine updated failed"),
         patchPageExtra st page.id
           (jsSetField page.extra "comment"
             (JVal.arr ((orderedComments st p).map (fun c => c.content))))) := by
  have hid : page.id = p := by simpa using List.find?_some hp
  have h2 : getPageFromDb
      (patchPageExtra st page.id
        (jsSetField page.extra "comment"
          (JVal.arr ((orderedComments st p).map (fun c => c.content))))) page.id
      = some { page with
          extra := jsSetField page.extra "comment"
            (JVal.arr ((orderedComments st p).map (fun c => c.content))) } := by
    rw [getPageFromDb_patch_same, hid, hp]
    simp [hid]
  unfold indexComments
  simp only [jsTruthyArray, if_true, hp, h2, hsf]

/-- When the page exists and the search engine is up, `indexComments`
succeeds: the metadata patch is written and the snapshot is pushed. -/
theorem indexComments_ok_eq (env : Env) (st : WikiState) (p : Nat)
    (page : PageRec) (hs : env.searchFails = false)
    (hp : getPageFromDb st p = some page) :
    indexComments env st p
      = (Except.ok (),
         { patchPageExtra st page.id
             (jsSetField page.extra "comment"
               (JVal.arr ((orderedComments st p).map (fun c => c.content)))) with
           indexPushes := st.indexPushes ++
             [{ page := { page with
                  extra := jsSetField page.extra "comment"
                    (JVal.arr ((orderedComments st p).map (fun c => c.content))) }
                safeContent := env.cleanHTML page.render }] }) := by
  have hid : page.id = p := by simpa using List.find?_some hp
  have h2 : getPageFromDb
      (patchPageExtra st page.id
        (jsSetField page.extra "comment"
          (JVal.arr ((orderedComments st p).map (fun c => c.content))))) page.id
      = some { page with
          extra := jsSetField page.extra "comment"
            (JVal.arr ((orderedComments st p).map (fun c => c.content))) } := by
    rw [getPageFromDb_patch_same, hid, hp]
    simp [hid]
  unfold indexComments
  simp only [jsTruthyArray, if_true, hp, h2, hs]
  rfl

/-- A successful full update persisted exactly the supplied content on the
requested row. -/
theorem updateCommentFull_ok_state (env : Env) (st : WikiState)
    (args : UpdateArgs) (row : CommentRow) (st' : WikiState)
    (h : updateCommentFull env st args = (Except.ok row, st')) :
    row.content = args.content ∧ row.id = args.id ∧ row ∈ st'.comments := by
  unfold updateCommentFull at h
  split at h
  next e heq => simp at h
  next call heq =>
    obtain ⟨hcid, hccontent⟩ := updateComment_ok_fields env st args call heq
    unfold commentUpdateWithHooks at h
    split at h
    next hf => simp at h
    next row0 hf =>
      simp only at h
      split at h
      next hg => simp at h
      next pid hg =>
        split at h
        next e st2 hidx => simp at h
        next u st2 hidx =>
          have hrow : { row0 with content := call.content, updatedAt := st.now } = row := by
            have hfst := congrArg Prod.fst h
            simpa using hfst
          have hst : st2 = st' := by
            have hsnd := congrArg Prod.snd h
            simpa using hsnd
          have hbeq : (row0.id == call.id) = true := by
            have := List.find?_some hf
            simpa using this
          have hid0 : row0.id = call.id := by simpa using hbeq
          have hmem0 : row0 ∈ st.comments := List.mem_of_find?_eq_some hf
          refine ⟨?_, ?_, ?_⟩
          · rw [← hrow, ← hccontent]
          · rw [← hrow]
            show row0.id = args.id
            rw [hid0, hcid]
          · have hcomm : st2.comments
                = (applyUpdateRow st call.id
                    { row0 with content := call.content, updatedAt := st.now }).comments := by
              have hi := indexComments_comments env
                (applyUpdateRow st call.id
                  { row0 with content := call.content, updatedAt := st.now }) pid
              rw [hidx] at hi
              exact hi
            rw [← hst, hcomm, ← hrow]
            exact List.mem_map.mpr ⟨row0, hmem0, by simp [hbeq]⟩

/- ## The ordering the spec's words prescribe (for comparison only) -/

/-- Modelled from the spec's words, not the source: "ordered by creation
time descending (deterministic tie-break: if timestamps are equal, order by
id descending)".  `a` may precede `b` exactly when `b`'s (createdAt, id)
key is lexicographically no larger. -/
def specLe (a b : CommentRow) : Bool :=
  decide (a.createdAt < b.createdAt) ||
    (decide (a.createdAt = b.createdAt) && decide (a.id ≤ b.id))

/-- Insertion step for the spec-words ordering. -/
def insertSpecDesc (c : CommentRow) : List CommentRow → List CommentRow
  | [] => [c]
  | d :: ds => if specLe d c then c :: d :: ds else d :: insertSpecDesc c ds

/-- Sort by the spec-words ordering (createdAt descending, ties id
descending). -/
def sortSpecDesc : List CommentRow → List CommentRow
  | [] => []
  | c :: cs => insertSpecDesc c (sortSpecDesc cs)

/-- The snapshot contents the spec's tie-break wording would produce. -/
def specTieBreakSnapshot (st : WikiState) (pageId : Nat) : List String :=
  (sortSpecDesc (st.comments.filter (fun c => c.pageId == pageId))).map
    (fun c => c.content)

/- ## Concrete fixtures used by counterexamples and witnesses -/

/-- An environment in which every access check passes and every external
collaborator behaves. -/
def envOk : Env :=
  { checkAccess := fun _ _ _ _ => true
    cleanHTML := fun s => s
    searchFails := false
    host := "https://wiki.example.org"
    notifyEmail := "ops@example.com" }

/-- Like `envOk`, but `searchEngine.updated` throws. -/
def envSearchDown : Env :=
  { envOk with searchFails := true }

/-- A page with a non-`comment` metadata field and a previously indexed
comment snapshot. -/
def pageOne : PageRec :=
  { id := 1
    path := "docs/intro"
    localeCode := "en"
    title := "Intro"
    render := "<p>hi</p>"
    extra := [("fm", JVal.str "keep"), ("comment", JVal.arr ["old snapshot"])] }

/-- A registered (non-guest) caller. -/
def userReg : UserRec :=
  { id := 3, name := "Reg User", email := "reg@example.com" }

/-- Page one with no comments at all. -/
def stNoComments : WikiState :=
  { comments := [], pages := [pageOne], indexPushes := [], mails := [], logs := [], now := 5 }

/-- Page one with a single stored comment (id 7). -/
def stOneComment : WikiState :=
  { comments :=
      [{ id := 7, pageId := 1, content := "Hello there", render := "", name := "Reg User",
         email := "reg@example.com", ip := "127.0.0.1", createdAt := 1, updatedAt := 1 }]
    pages := [pageOne]
    indexPushes := []
    mails := []
    logs := []
    now := 5 }

/-- Page one with two comments sharing one creation timestamp. -/
def stTwoEqualTimes : WikiState :=
  { comments :=
      [{ id := 1, pageId := 1, content := "A", render := "", name := "Reg User",
         email := "reg@example.com", ip := "127.0.0.1", createdAt := 5, updatedAt := 5 },
       { id := 2, pageId := 1, content := "B", render := "", name := "Reg User",
         email := "reg@example.com", ip := "127.0.0.1", createdAt := 5, updatedAt := 5 }]
    pages := [pageOne]
    indexPushes := []
    mails := []
    logs := []
    now := 9 }

/-- A state with no pages (and no comments) at all. -/
def stNoPages : WikiState :=
  { comments := [], pages := [], indexPushes := [], mails := [], logs := [], now := 0 }

/-- A valid registered-user create request for page one. -/
def argsReg : CreateArgs :=
  { pageId := 1, replyTo := none, content := "Hello world", guestName := none,
    guestEmail := none, user := userReg, ip := "127.0.0.1" }

/-- The provider call `argsReg` resolves to. -/
def callReg : CreateCall :=
  { pageId := 1, replyTo := none, content := "Hello world",
    user := { id := 3, name := some "Reg User", email := some "reg@example.com",
              ip := "127.0.0.1" } }

/-- A guest (sentinel id 2) request with too-short content and invalid
guest identity fields. -/
def argsGuestShort : CreateArgs :=
  { pageId := 1, replyTo := none, content := "x", guestName := none,
    guestEmail := none, user := { id := 2, name := "Guest", email := "" },
    ip := "127.0.0.1" }

/-- A registered-user request with too-short content. -/
def argsRegShort : CreateArgs :=
  { pageId := 1, replyTo := none, content := " h ", guestName := none,
    guestEmail := none, user := userReg, ip := "127.0.0.1" }

/-- A guest request that is valid except for the absent guestEmail. -/
def argsGuestNoEmail : CreateArgs :=
  { pageId := 1, replyTo := none, content := "Hello world",
    guestName := some "Visitor", guestEmail := none,
    user := { id := 2, name := "Guest", email := "" }, ip := "127.0.0.1" }

/-- A registered-user request carrying invalid guest fields, which must be
ignored for a non-guest caller. -/
def argsRegGarbageGuest : CreateArgs :=
  { pageId := 1, replyTo := none, content := "Hello world",
    guestName := some "", guestEmail := some "not-an-email",
    user := userReg, ip := "127.0.0.1" }

/-- An update of comment 7 to a content whose trimmed length is 1. -/
def updArgsShort : UpdateArgs :=
  { id := 7, content := "x", user := userReg, ip := "127.0.0.1" }

/-- The row `updArgsShort` persists on `stOneComment`. -/
def updRow7 : CommentRow :=
  { id := 7, pageId := 1, content := "x", render := "", name := "Reg User",
    email := "reg@example.com", ip := "127.0.0.1", createdAt := 1, updatedAt := 5 }

/-- The state after running `updArgsShort` on `stOneComment`. -/
def stAfterUpd7 : WikiState :=
  (updateCommentFull envOk stOneComment updArgsShort).2

/-- An update aimed at a comment id that resolves to no stored comment. -/
def updArgsMissing : UpdateArgs :=
  { id := 42, content := "still here", user := userReg, ip := "127.0.0.1" }

/-- A delete of comment 7. -/
def delArgs7 : DeleteArgs :=
  { id := 7, user := userReg, ip := "127.0.0.1" }

/-- The provider call `delArgs7` resolves to on `stOneComment`. -/
def remCall7 : RemoveCall :=
  { id := 7, pageId := 1,
    user := { id := 3, name := some "Reg User", email := some "reg@example.com",
              ip := "127.0.0.1" } }

/-- The page record the result state of a successful `indexComments` run
holds for the indexed page: the old page with only `extra.comment`
rewritten. -/
theorem indexComments_getPage (env : Env) (st : WikiState) (p : Nat)
    (page : PageRec) (hp : getPageFromDb st p = some page) :
    getPageFromDb (indexComments env st p).2 p
      = some { page with
          extra := jsSetField page.extra "comment"
            (JVal.arr ((orderedComments st p).map (fun c => c.content))) } := by
  have hid : page.id = p := by simpa using List.find?_some hp
  cases hs : env.searchFails with
  | true =>
    rw [indexComments_searchFails_eq env st p page hs hp]
    show getPageFromDb (patchPageExtra st page.id _) p = _
    rw [← hid, getPageFromDb_patch_same, hid, hp]
    simp [hid]
  | false =>
    rw [indexComments_ok_eq env st p page hs hp]
    show getPageFromDb (patchPageExtra st page.id _) p = _
    rw [← hid, getPageFromDb_patch_same, hid, hp]
    simp [hid]

/- ## Claim C3 -/

/-- Claim C3 (code bug): the spec says an empty comment set makes IndexSync
log at informational level and change no state, and the source's dead
`else` branch (whose log text matches that intent) shows the same reading —
but `if (existingComments)` tests an always-truthy array, so on a page with
zero comments `indexComments` succeeds, rewrites `extra.comment` to the
empty array (clearing the previously indexed snapshot), pushes the page to
the search index, and writes no log at all. -/
theorem c3_empty_set_still_indexes :
    (indexComments envOk stNoComments 1).1 = Except.ok () ∧
    extraCommentOf stNoComments 1 = some (some (JVal.arr ["old snapshot"])) ∧
    extraCommentOf (indexComments envOk stNoComments 1).2 1
      = some (some (JVal.arr [])) ∧
    (indexComments envOk stNoComments 1).2.indexPushes.length = 1 ∧
    (indexComments envOk stNoComments 1).2.logs = [] := by
  decide

/- ## Claim C6 -/

/-- Claim C6 (confirmed): a guest create (sentinel user id 2) with an
absent guestEmail fails with `InputInvalid` — `_.toLower(undefined)` is
`""`, which fails the email pattern, and the email attribute's message
comes first — and no storage-provider mutation is invoked. -/
theorem c6_guest_missing_email_rejected (env : Env) (st : WikiState)
    (args : CreateArgs) (hg : args.user.id = 2) (he : args.guestEmail = none) :
    postNewComment env st args
      = Except.error (WikiErr.inputInvalid emailInvalidMsg) ∧
    callsOf (postNewComment env st args) = [] := by
  have hmsgs : guestValidationMsgs args.guestEmail args.guestName
      = emailInvalidMsg :: guestNameMsgs args.guestName := by
    rw [he]
    unfold guestValidationMsgs
    rw [(by decide : guestEmailMsgs none = [emailInvalidMsg])]
    rfl
  have hpost : postNewComment env st args
      = Except.error (WikiErr.inputInvalid emailInvalidMsg) := by
    unfold postNewComment
    rw [if_pos hg, hmsgs]
  exact ⟨hpost, by rw [hpost]; rfl⟩

/-- Witness for C6 at a concrete guest request with absent email. -/
theorem c6_witness :
    postNewComment envOk stNoComments argsGuestNoEmail
      = Except.error (WikiErr.inputInvalid emailInvalidMsg) ∧
    callsOf (postNewComment envOk stNoComments argsGuestNoEmail) = [] :=
  c6_guest_missing_email_rejected envOk stNoComments argsGuestNoEmail rfl rfl

/- ## Claim C9 -/

/-- Claim C9 (confirmed): on a page with a non-empty comment set,
IndexSync's metadata write replaces the page's `extra.comment` field with
the full list of current comment contents (full replace) and leaves every
other field of the `extra` bag unchanged. -/
theorem c9_index_rewrites_only_comment_field (env : Env) (st : WikiState)
    (p : Nat) (page : PageRec) (hp : getPageFromDb st p = some page)
    (_hne : orderedComments st p ≠ []) :
    ∃ pg', getPageFromDb (indexComments env st p).2 p = some pg' ∧
      jsGetField pg'.extra "comment"
        = some (JVal.arr ((orderedComments st p).map (fun c => c.content))) ∧
      ∀ k, k ≠ "comment" → jsGetField pg'.extra k = jsGetField page.extra k := by
  refine ⟨{ page with
      extra := jsSetField page.extra "comment"
        (JVal.arr ((orderedComments st p).map (fun c => c.content))) },
    indexComments_getPage env st p page hp, ?_, ?_⟩
  · show jsGetField (jsSetField page.extra "comment" _) "comment" = _
    exact jsGetField_set_same _ _ _
  · intro k hk
    show jsGetField (jsSetField page.extra "comment" _) k = _
    exact jsGetField_set_other _ _ _ _ hk

/-- Witness for C9 on a page holding one comment and a non-comment metadata
field. -/
theorem c9_witness :
    ∃ pg', getPageFromDb (indexComments envOk stOneComment 1).2 1 = some pg' ∧
      jsGetField pg'.extra "fm" = some (JVal.str "keep") ∧
      jsGetField pg'.extra "comment" = some (JVal.arr ["Hello there"]) := by
  obtain ⟨pg', hfind, hcomment, hframe⟩ :=
    c9_index_rewrites_only_comment_field envOk stOneComment 1 pageOne
      (by decide) (by decide)
  refine ⟨pg', hfind, ?_, ?_⟩
  · rw [hframe "fm" (by decide)]
    decide
  · rw [hcomment]
    decide

/- ## Claim C10 -/

/-- Claim C10 (confirmed): guest handling in create is decided solely by
the sentinel user id 2.  For any other caller no guest validation happens
(`InputInvalid` is impossible however invalid the supplied guest fields
are) and the forwarded identity keeps the caller's own name and email;
exactly for id 2, a failing validation surfaces its first message, and a
successful call forwards the guest name/email in place of the user's. -/
theorem c10_guest_sentinel_only (env : Env) (st : WikiState) (args : CreateArgs) :
    (args.user.id ≠ 2 →
      (∀ m, postNewComment env st args ≠ Except.error (WikiErr.inputInvalid m)) ∧
      (∀ call, postNewComment env st args = Except.ok call →
        call.user.name = some args.user.name ∧
        call.user.email = some args.user.email)) ∧
    (args.user.id = 2 →
      (∀ m ms, guestValidationMsgs args.guestEmail args.guestName = m :: ms →
        postNewComment env st args = Except.error (WikiErr.inputInvalid m)) ∧
      (∀ call, postNewComment env st args = Except.ok call →
        call.user.name = args.guestName ∧
        call.user.email = args.guestEmail)) := by
  constructor
  · intro h2
    have hpass := postNewComment_validation_pass env st args
      (fun hg => absurd hg h2)
    constructor
    · intro m
      rw [hpass]
      exact postNewCommentRest_not_inputInvalid env st args m
    · intro call hok
      rw [hpass] at hok
      have h := postNewCommentRest_ok_fields env st args call hok
      refine ⟨?_, ?_⟩
      · rw [h.2.2.2.1, if_neg h2]
      · rw [h.2.2.2.2.1, if_neg h2]
  · intro h2
    constructor
    · intro m ms hmsgs
      unfold postNewComment
      rw [if_pos h2, hmsgs]
    · intro call hok
      have h := postNewCommentRest_ok_fields env st args call
        (postNewComment_ok_elim env st args call hok)
      refine ⟨?_, ?_⟩
      · rw [h.2.2.2.1, if_pos h2]
      · rw [h.2.2.2.2.1, if_pos h2]

/-- Witness for C10: a non-guest caller with garbage guest fields attached
is not rejected by guest validation and keeps their own identity. -/
theorem c10_witness :
    (∀ m, postNewComment envOk stNoComments argsRegGarbageGuest
      ≠ Except.error (WikiErr.inputInvalid m)) ∧
    (∀ call, postNewComment envOk stNoComments argsRegGarbageGuest = Except.ok call →
      call.user.name = some "Reg User" ∧ call.user.email = some "reg@example.com") :=
  (c10_guest_sentinel_only envOk stNoComments argsRegGarbageGuest).1 (by decide)

/- ## Claim C1 -/

/-- Counterexample to C1 as stated: on a create whose storage insert
succeeds but whose post-commit IndexSync push fails, the call does not
return the persisted comment — the hook failure propagates out of the
awaited `$afterInsert` and the operation fails, even though the inserted
row remains stored. -/
theorem c1_counterexample :
    (createCommentFull envSearchDown stNoComments 10 argsReg).1
      = Except.error (WikiErr.jsError "searchEngine updated failed") ∧
    (createCommentFull envSearchDown stNoComments 10 argsReg).2.comments.map
      (fun c => c.content) = ["Hello world"] := by
  decide

/-- Claim C1 (amended): a failure thrown by a post-commit side effect in
`$afterInsert` is re-surfaced to the caller of the storage mutation — the
hooks are awaited with no catch, so the calling operation fails — but the
persisted write is not rolled back: the inserted row is still in storage
afterwards. -/
theorem c1_post_commit_failure_propagates (env : Env) (st : WikiState)
    (newId : Nat) (args : CreateArgs) (call : CreateCall)
    (hsf : env.searchFails = true)
    (hok : postNewComment env st args = Except.ok call) :
    ∃ e st', createCommentFull env st newId args = (Except.error e, st') ∧
      st'.comments = st.comments ++ [mkInsertRow st newId call] := by
  obtain ⟨⟨page, hp⟩, hpid, _⟩ := postNewCommentRest_ok_fields env st args call
    (postNewComment_ok_elim env st args call hok)
  have hp' : getPageFromDb
      { st with comments := st.comments ++ [mkInsertRow st newId call] } call.pageId
      = some page := by
    rw [hpid]
    exact hp
  have hidx := indexComments_searchFails_eq env
    { st with comments := st.comments ++ [mkInsertRow st newId call] }
    call.pageId page hsf hp'
  have heq : createCommentFull env st newId args
      = (Except.error (WikiErr.jsError "searchEngine updated failed"),
         patchPageExtra
           { st with comments := st.comments ++ [mkInsertRow st newId call] }
           page.id
           (jsSetField page.extra "comment"
             (JVal.arr ((orderedComments
               { st with comments := st.comments ++ [mkInsertRow st newId call] }
               call.pageId).map (fun c => c.content))))) := by
    unfold createCommentFull
    rw [hok]
    unfold commentInsertWithHooks
    simp only []
    rw [show (mkInsertRow st newId call).pageId = call.pageId from rfl, hidx]
  exact ⟨_, _, heq, rfl⟩

/-- Witness for the amended C1 at a concrete request against a broken
search engine. -/
theorem c1_witness :
    ∃ e st', createCommentFull envSearchDown stNoComments 10 argsReg
        = (Except.error e, st') ∧
      st'.comments = stNoComments.comments ++ [mkInsertRow stNoComments 10 callReg] :=
  c1_post_commit_failure_propagates envSearchDown stNoComments 10 argsReg callReg
    rfl (by decide)

/- ## Claim C2 -/

/-- Counterexample to C2 as stated: an update with content `"x"` (trimmed
length 1) succeeds and persists that content, so the ≥ 2 invariant does not
hold at all times. -/
theorem c2_counterexample :
    (updateCommentFull envOk stOneComment updArgsShort).1 = Except.ok updRow7 ∧
    (updateCommentFull envOk stOneComment updArgsShort).2.comments.map
      (fun c => c.content) = ["x"] ∧
    (jsTrim "x").length < 2 := by
  decide

/-- Claim C2 (amended): creation enforces the content invariant — a
successful `postNewComment` always forwards the trimmed content, of length
at least 2, to the provider — but `updateComment` performs no content
validation at all: any update that passes resolution and authorization
persists the supplied content verbatim, even below the minimum length. -/
theorem c2_content_checked_only_on_create (env : Env) (st : WikiState) :
    (∀ args call, postNewComment env st args = Except.ok call →
      call.content = jsTrim args.content ∧ 2 ≤ call.content.length) ∧
    (∀ args call, updateComment env st args = Except.ok call →
      call.content = args.content) ∧
    (∀ args row st', updateCommentFull env st args = (Except.ok row, st') →
      row.content = args.content ∧ row.id = args.id ∧ row ∈ st'.comments) := by
  refine ⟨?_, ?_, ?_⟩
  · intro args call hok
    have hrest := postNewComment_ok_elim env st args call hok
    have hfields := postNewCommentRest_ok_fields env st args call hrest
    refine ⟨hfields.2.2.1, ?_⟩
    rw [hfields.2.2.1]
    by_cases hc : (jsTrim args.content).length < 2
    · rw [postNewCommentRest_short env st args hc] at hrest
      cases hrest
    · omega
  · intro args call hok
    exact (updateComment_ok_fields env st args call hok).2
  · intro args row st' h
    exact updateCommentFull_ok_state env st args row st' h

/-- Witness for the amended C2: the concrete short-content update persists
`"x"` on comment 7. -/
theorem c2_witness :
    updRow7.content = updArgsShort.content ∧ updRow7.id = updArgsShort.id ∧
    updRow7 ∈ stAfterUpd7.comments :=
  (c2_content_checked_only_on_create envOk stOneComment).2.2 updArgsShort updRow7
    stAfterUpd7 (by decide)

/- ## Claim C4 -/

/-- Counterexample to C4 as stated: a successful delete removes the row and
changes nothing else — no IndexSync runs (no snapshot push, no metadata
rewrite: the stale `extra.comment` still lists the deleted comment's
predecessor snapshot) and no log is written. -/
theorem c4_counterexample :
    (deleteCommentFull envOk stOneComment delArgs7).1 = Except.ok () ∧
    (deleteCommentFull envOk stOneComment delArgs7).2.comments = [] ∧
    (deleteCommentFull envOk stOneComment delArgs7).2.indexPushes = [] ∧
    extraCommentOf (deleteCommentFull envOk stOneComment delArgs7).2 1
      = some (some (JVal.arr ["old snapshot"])) ∧
    (deleteCommentFull envOk stOneComment delArgs7).2.logs = [] ∧
    (deleteCommentFull envOk stOneComment delArgs7).2.mails = [] := by
  decide

/-- Claim C4 (amended): a successful delete calls `StorageProvider.remove`
and schedules neither IndexSync nor a notification — the comments model
defines no after-delete hook and `deleteComment` itself runs nothing after
the remove, so the final state differs from the initial one only by the
removed comment row. -/
theorem c4_delete_schedules_nothing (env : Env) (st : WikiState)
    (args : DeleteArgs) (call : RemoveCall)
    (hok : deleteComment env st args = Except.ok call) :
    (deleteCommentFull env st args).1 = Except.ok () ∧
    (deleteCommentFull env st args).2.comments
      = st.comments.filter (fun c => c.id != args.id) ∧
    (deleteCommentFull env st args).2.pages = st.pages ∧
    (deleteCommentFull env st args).2.indexPushes = st.indexPushes ∧
    (deleteCommentFull env st args).2.mails = st.mails ∧
    (deleteCommentFull env st args).2.logs = st.logs := by
  have hid := deleteComment_ok_id env st args call hok
  unfold deleteCommentFull
  rw [hok]
  exact ⟨rfl, by rw [← hid], rfl, rfl, rfl, rfl⟩

/-- Witness for the amended C4 at the concrete delete of comment 7. -/
theorem c4_witness :
    (deleteCommentFull envOk stOneComment delArgs7).1 = Except.ok () ∧
    (deleteCommentFull envOk stOneComment delArgs7).2.comments
      = stOneComment.comments.filter (fun c => c.id != delArgs7.id) ∧
    (deleteCommentFull envOk stOneComment delArgs7).2.pages = stOneComment.pages ∧
    (deleteCommentFull envOk stOneComment delArgs7).2.indexPushes
      = stOneComment.indexPushes ∧
    (deleteCommentFull envOk stOneComment delArgs7).2.mails = stOneComment.mails ∧
    (deleteCommentFull envOk stOneComment delArgs7).2.logs = stOneComment.logs :=
  c4_delete_schedules_nothing envOk stOneComment delArgs7 remCall7 (by decide)

/- ## Claim C5 -/

/-- Counterexample to C5 as stated: for a guest author with invalid guest
identity fields and content of trimmed length 1, create fails with
`InputInvalid` (guest validation runs before the content check), not with
`ContentMissing`. -/
theorem c5_counterexample :
    postNewComment envOk stNoComments argsGuestShort
      = Except.error (WikiErr.inputInvalid emailInvalidMsg) ∧
    WikiErr.inputInvalid emailInvalidMsg ≠ WikiErr.commentContentMissing ∧
    (jsTrim argsGuestShort.content).length < 2 := by
  decide

/-- Claim C5 (amended): for all content with trimmed length < 2, create
fails and no provider mutation is invoked; the error is `ContentMissing`
whenever guest validation does not fire first (any non-guest author, or a
guest whose identity fields validate) — a guest with invalid identity
fields gets `InputInvalid` instead, because the source validates guest
fields before checking content. -/
theorem c5_short_content_always_fails (env : Env) (st : WikiState)
    (args : CreateArgs) (h : (jsTrim args.content).length < 2) :
    (∃ e, postNewComment env st args = Except.error e) ∧
    callsOf (postNewComment env st args) = [] ∧
    ((args.user.id = 2 → guestValidationMsgs args.guestEmail args.guestName = []) →
      postNewComment env st args = Except.error WikiErr.commentContentMissing) := by
  by_cases hg : args.user.id = 2
  · cases hv : guestValidationMsgs args.guestEmail args.guestName with
    | nil =>
      have hpost : postNewComment env st args
          = Except.error WikiErr.commentContentMissing := by
        unfold postNewComment
        rw [if_pos hg, hv]
        exact postNewCommentRest_short env st args h
      exact ⟨⟨_, hpost⟩, by rw [hpost]; rfl, fun _ => hpost⟩
    | cons m ms =>
      have hpost : postNewComment env st args
          = Except.error (WikiErr.inputInvalid m) := by
        unfold postNewComment
        rw [if_pos hg, hv]
      refine ⟨⟨_, hpost⟩, by rw [hpost]; rfl, fun hcon => ?_⟩
      exact absurd (hcon hg) (by simp)
  · have hpost : postNewComment env st args
        = Except.error WikiErr.commentContentMissing := by
      unfold postNewComment
      rw [if_neg hg]
      exact postNewCommentRest_short env st args h
    exact ⟨⟨_, hpost⟩, by rw [hpost]; rfl, fun _ => hpost⟩

/-- Witness for the amended C5: a registered user's short content is
rejected with `ContentMissing` and nothing reaches the provider. -/
theorem c5_witness :
    (∃ e, postNewComment envOk stNoComments argsRegShort = Except.error e) ∧
    callsOf (postNewComment envOk stNoComments argsRegShort) = [] ∧
    ((argsRegShort.user.id = 2 →
        guestValidationMsgs argsRegShort.guestEmail argsRegShort.guestName = []) →
      postNewComment envOk stNoComments argsRegShort
        = Except.error WikiErr.commentContentMissing) :=
  c5_short_content_always_fails envOk stNoComments argsRegShort (by decide)

/- ## Claim C7 -/

/-- Counterexample to C7 as stated: with an absent page but content of
trimmed length 1, create fails with `ContentMissing`, not `PageNotFound` —
the earlier validations run before the page lookup. -/
theorem c7_counterexample :
    getPageFromDb stNoPages argsRegShort.pageId = none ∧
    postNewComment envOk stNoPages argsRegShort
      = Except.error WikiErr.commentContentMissing ∧
    WikiErr.commentContentMissing ≠ WikiErr.pageNotFound := by
  decide

/-- Claim C7 (amended): when the owning page lookup is absent, create,
update and delete always fail and never invoke a provider mutation; the
error is `PageNotFound` for create provided the earlier input validations
pass, and for update/delete it is `CommentNotFound` when the comment id
does not resolve and `PageNotFound` when it resolves but the page is
absent. -/
theorem c7_absent_page_fails_without_mutation (env : Env) (st : WikiState) :
    (∀ args : CreateArgs, getPageFromDb st args.pageId = none →
      (∃ e, postNewComment env st args = Except.error e) ∧
      callsOf (postNewComment env st args) = [] ∧
      ((args.user.id = 2 → guestValidationMsgs args.guestEmail args.guestName = []) →
        2 ≤ (jsTrim args.content).length →
        postNewComment env st args = Except.error WikiErr.pageNotFound)) ∧
    (∀ args : UpdateArgs,
      (getPageIdFromCommentId st args.id = none →
        updateComment env st args = Except.error WikiErr.commentNotFound ∧
        callsOf (updateComment env st args) = []) ∧
      (∀ pid, getPageIdFromCommentId st args.id = some pid →
        getPageFromDb st pid = none →
        updateComment env st args = Except.error WikiErr.pageNotFound ∧
        callsOf (updateComment env st args) = [])) ∧
    (∀ args : DeleteArgs,
      (getPageIdFromCommentId st args.id = none →
        deleteComment env st args = Except.error WikiErr.commentNotFound ∧
        callsOf (deleteComment env st args) = []) ∧
      (∀ pid, getPageIdFromCommentId st args.id = some pid →
        getPageFromDb st pid = none →
        deleteComment env st args = Except.error WikiErr.pageNotFound ∧
        callsOf (deleteComment env st args) = [])) := by
  refine ⟨?_, ?_, ?_⟩
  · intro args hp
    have herr : ∃ e, postNewComment env st args = Except.error e := by
      cases hres : postNewComment env st args with
      | error e => exact ⟨e, rfl⟩
      | ok call =>
        obtain ⟨⟨page, hps⟩, _⟩ := postNewCommentRest_ok_fields env st args call
          (postNewComment_ok_elim env st args call hres)
        rw [hp] at hps
        cases hps
    obtain ⟨e, he⟩ := herr
    refine ⟨⟨e, he⟩, by rw [he]; rfl, fun hg hc => ?_⟩
    rw [postNewComment_validation_pass env st args hg]
    exact postNewCommentRest_noPage env st args (by omega) hp
  · intro args
    constructor
    · intro h
      have heq := updateComment_noComment env st args h
      exact ⟨heq, by rw [heq]; rfl⟩
    · intro pid h hp
      have heq := updateComment_noPage env st args pid h hp
      exact ⟨heq, by rw [heq]; rfl⟩
  · intro args
    constructor
    · intro h
      have heq := deleteComment_noComment env st args h
      exact ⟨heq, by rw [heq]; rfl⟩
    · intro pid h hp
      have heq := deleteComment_noPage env st args pid h hp
      exact ⟨heq, by rw [heq]; rfl⟩

/-- Witness for the amended C7: an update against an unresolvable comment
id fails with `CommentNotFound` and performs no mutation. -/
theorem c7_witness :
    updateComment envOk stNoPages updArgsMissing
      = Except.error WikiErr.commentNotFound ∧
    callsOf (updateComment envOk stNoPages updArgsMissing) = [] :=
  ((c7_absent_page_fails_without_mutation envOk stNoPages).2.1 updArgsMissing).1 rfl

/- ## Claim C8 -/

/-- Counterexample to the C8 tie-break wording: with two comments sharing a
creation timestamp, the snapshot keeps storage order (id ascending for
rows inserted in id order), not the claimed id-descending order — the
source orders by `createdAt` only. -/
theorem c8_counterexample :
    extraCommentOf (indexComments envOk stTwoEqualTimes 1).2 1
      = some (some (JVal.arr ["A", "B"])) ∧
    specTieBreakSnapshot stTwoEqualTimes 1 = ["B", "A"] ∧
    some (some (JVal.arr (specTieBreakSnapshot stTwoEqualTimes 1)))
      ≠ some (some (JVal.arr ["A", "B"])) := by
  decide

/-- Claim C8 (amended): IndexSync is idempotent — with no intervening
writes a second run recomputes the same `extra.comment` snapshot and pushes
the same page snapshot as the first — and the snapshot lists comments in
creation-time-descending order; no id tie-break is applied (the embedding's
stable sort keeps storage order among equal timestamps). -/
theorem c8_index_idempotent_createdAt_desc (env : Env) (st : WikiState)
    (p : Nat) (page : PageRec) (hs : env.searchFails = false)
    (hp : getPageFromDb st p = some page) :
    ∃ snap : PageSnapshot,
      (indexComments env st p).2.indexPushes = st.indexPushes ++ [snap] ∧
      (indexComments env (indexComments env st p).2 p).2.indexPushes
        = (indexComments env st p).2.indexPushes ++ [snap] ∧
      extraCommentOf (indexComments env st p).2 p
        = some (some (JVal.arr ((orderedComments st p).map (fun c => c.content)))) ∧
      extraCommentOf (indexComments env (indexComments env st p).2 p).2 p
        = extraCommentOf (indexComments env st p).2 p ∧
      sortedDescBool (orderedComments st p) = true := by
  have h1 := indexComments_ok_eq env st p page hs hp
  have hpg1 := indexComments_getPage env st p page hp
  have hord : orderedComments (indexComments env st p).2 p = orderedComments st p := by
    unfold orderedComments
    rw [indexComments_comments env st p]
  have h2 := indexComments_ok_eq env (indexComments env st p).2 p
    { page with
      extra := jsSetField page.extra "comment"
        (JVal.arr ((orderedComments st p).map (fun c => c.content))) } hs hpg1
  have hpg2 := indexComments_getPage env (indexComments env st p).2 p
    { page with
      extra := jsSetField page.extra "comment"
        (JVal.arr ((orderedComments st p).map (fun c => c.content))) } hpg1
  refine ⟨{ page := { page with
              extra := jsSetField page.extra "comment"
                (JVal.arr ((orderedComments st p).map (fun c => c.content))) },
            safeContent := env.cleanHTML page.render }, ?_, ?_, ?_, ?_,
    sortedDescBool_sortCreatedDesc _⟩
  · rw [h1]
  · rw [h2]
    simp [hord, jsSetField_idem]
  · unfold extraCommentOf
    rw [hpg1]
    simp [jsGetField_set_same]
  · unfold extraCommentOf
    rw [hpg2, hpg1]
    simp [hord, jsSetField_idem]

/-- Witness for the amended C8 on the two-equal-timestamps state. -/
theorem c8_witness :
    extraCommentOf (indexComments envOk stTwoEqualTimes 1).2 1
      = some (some (JVal.arr
          ((orderedComments stTwoEqualTimes 1).map (fun c => c.content)))) ∧
    extraCommentOf
        (indexComments envOk (indexComments envOk stTwoEqualTimes 1).2 1).2 1
      = extraCommentOf (indexComments envOk stTwoEqualTimes 1).2 1 ∧
    sortedDescBool (orderedComments stTwoEqualTimes 1) = true := by
  obtain ⟨snap, h1, h2, h3, h4, h5⟩ :=
    c8_index_idempotent_createdAt_desc envOk stTwoEqualTimes 1 pageOne rfl (by decide)
  exact ⟨h3, h4, h5⟩

end WikiComments
